import Mathlib

/-
Verification of the synchronous-bridge / node-lifecycle layer of the
iroh FFI facade (src/node.rs), as a shallow embedding in Lean 4.

The embedding follows src/node.rs.  The store, blob, ticket-codec and
executor collaborators are external crates consumed through narrow
interfaces; where a claim depends on one of them, the collaborator is
modelled from the spec's contract and the definition's doc comment says
so explicitly (it starts with "Modelled from the spec:").
-/

set_option maxHeartbeats 1000000

namespace IrohFfi

/-- Error kinds of the facade, one constructor per origin as listed by the
error-handling design (RuntimeInit, NodeCreate, Doc, DocTicketParse, Author):
these are the typed failures `crate::error::IrohError` wraps around the
collaborators' messages. -/
inductive IrohError where
  | runtime (msg : String)
  | nodeCreate (msg : String)
  | doc (msg : String)
  | docTicketParse (msg : String)
  | author (msg : String)
deriving DecidableEq, Repr

/-- A byte, as in the Rust `u8` of keys, values and ticket encodings. -/
abbrev Byte := Fin 256

/-- Hex digit for a nibble: 0-9 then a-f (one injective text encoding of a
byte sequence, standing in for the external codec's alphabet). -/
def hexDigit (n : Fin 16) : Char :=
  if n.val < 10 then Char.ofNat (48 + n.val) else Char.ofNat (87 + n.val)

/-- Decode one character back to a nibble; characters outside the alphabet
are rejected. -/
def hexVal (c : Char) : Option (Fin 16) :=
  if h : 48 ≤ c.toNat ∧ c.toNat ≤ 57 then some ⟨c.toNat - 48, by omega⟩
  else if h2 : 97 ≤ c.toNat ∧ c.toNat ≤ 102 then some ⟨c.toNat - 87, by omega⟩
  else none

/-- Serialize a byte sequence to text, two characters per byte. -/
def encodeHexBytes : List Byte → List Char
  | [] => []
  | b :: rest =>
      hexDigit ⟨b.val / 16, by have := b.isLt; omega⟩ ::
      hexDigit ⟨b.val % 16, by have := b.isLt; omega⟩ ::
      encodeHexBytes rest

/-- Parse text back to a byte sequence; odd length or a character outside
the alphabet fails. -/
def decodeHexBytes : List Char → Option (List Byte)
  | [] => some []
  | [_] => none
  | c1 :: c2 :: rest =>
      match hexVal c1, hexVal c2, decodeHexBytes rest with
      | some hi, some lo, some bs =>
          some (⟨hi.val * 16 + lo.val, by have := hi.isLt; have := lo.isLt; omega⟩ :: bs)
      | _, _, _ => none

lemma hexVal_hexDigit : ∀ n : Fin 16, hexVal (hexDigit n) = some n := by decide

lemma decodeHexBytes_encodeHexBytes (bs : List Byte) :
    decodeHexBytes (encodeHexBytes bs) = some bs := by
  induction bs with
  | nil => rfl
  | cons b rest ih =>
      simp [encodeHexBytes, decodeHexBytes, hexVal_hexDigit, ih, Nat.div_add_mod]
      apply Fin.ext
      show b.val / 16 * 16 + b.val % 16 = b.val
      have := b.isLt
      omega

/-- Modelled from the spec: a `DocTicket` is an immutable serializable
capability whose identity is its serialized byte form ("two tickets are
equal iff their serialized byte forms are equal"); the byte layout itself
is owned by the external store collaborator, so the ticket is modelled as
its serialized bytes. -/
structure DocTicket where
  bytes : List Byte
deriving DecidableEq, Repr

/-- DocTicket::to_string — Display of the ticket: the serialized bytes
rendered through the collaborator's stable, exactly reversible text
encoding (modelled here as the hex codec above). -/
def DocTicket.to_string (t : DocTicket) : String :=
  String.mk (encodeHexBytes t.bytes)

/-- DocTicket::from_string — parses previously serialized ticket text; a
malformed text is a `DocTicketParse` error, as in node.rs lines 165-170. -/
def DocTicket.from_string (content : String) : Except IrohError DocTicket :=
  match decodeHexBytes content.data with
  | some bs => Except.ok ⟨bs⟩
  | none => Except.error (IrohError.docTicketParse "invalid ticket text")

/-- C2: for every valid ticket `t`, `DocTicket.from_string (t.to_string)`
succeeds and yields a ticket whose underlying serialized byte encoding
equals that of `t`. -/
theorem ticket_roundtrip (t : DocTicket) :
    DocTicket.from_string (DocTicket.to_string t) = Except.ok t := by
  cases t with
  | mk bs =>
      simp [DocTicket.from_string, DocTicket.to_string,
        decodeHexBytes_encodeHexBytes]

/-- Modelled from the spec: an `AuthorId` is an opaque keypair-derived
writer identity minted by the external store; the identity is modelled as
an opaque number. -/
structure AuthorId where
  id : Nat
deriving DecidableEq, Repr

/-- AuthorId::to_string (node.rs 156-158): Display of the underlying id;
a pure function of the id. -/
def AuthorId.to_string (a : AuthorId) : String :=
  Nat.repr a.id

/-- Modelled from the spec: a `SignedEntry` is an immutable record
(author, key, value reference, signature) produced by a write; the value
reference is the blob-store address of the content, and the signature is
opaque external data not inspected by the facade. -/
structure SignedEntry where
  author : AuthorId
  key : List Byte
  contentRef : Nat
deriving DecidableEq, Repr

/-- The public LiveEvent type (node.rs 23-28): three payload-free
variants. -/
inductive LiveEvent where
  | insertLocal
  | insertRemote
  | contentReady
deriving DecidableEq, Repr

/-- Modelled from the spec: the store's internal live event.  InsertLocal
carries the committed entry, InsertRemote the peer origin and entry,
ContentReady the finished content hash; the exact fields live in the
external store crate and are matched with `..` by node.rs 30-38. -/
inductive InternalLiveEvent where
  | insertLocal (entry : SignedEntry)
  | insertRemote (peer : Nat) (entry : SignedEntry)
  | contentReady (hash : List Byte)
deriving DecidableEq, Repr

/-- The From conversion of node.rs 30-38: each internal variant maps to
the public variant of the same name, discarding the payload. -/
def liveEventFrom : InternalLiveEvent → LiveEvent
  | .insertLocal _ => .insertLocal
  | .insertRemote _ _ => .insertRemote
  | .contentReady _ => .contentReady

/-- C10: the internal-to-public event conversion is total and
deterministic — every internal variant maps to exactly one corresponding
public variant — and the public variants carry no payload: all data
attached to the internal event is discarded, so events of the same
variant convert to the same tag whatever their payloads. -/
theorem liveEvent_conversion_total_payload_free :
    (∀ e : SignedEntry, liveEventFrom (.insertLocal e) = LiveEvent.insertLocal)
    ∧ (∀ (p : Nat) (e : SignedEntry),
        liveEventFrom (.insertRemote p e) = LiveEvent.insertRemote)
    ∧ (∀ h : List Byte, liveEventFrom (.contentReady h) = LiveEvent.contentReady)
    ∧ (∀ e1 e2 : SignedEntry,
        liveEventFrom (.insertLocal e1) = liveEventFrom (.insertLocal e2))
    ∧ (∀ (p1 p2 : Nat) (e1 e2 : SignedEntry),
        liveEventFrom (.insertRemote p1 e1) = liveEventFrom (.insertRemote p2 e2))
    ∧ (∀ h1 h2 : List Byte,
        liveEventFrom (.contentReady h1) = liveEventFrom (.contentReady h2)) :=
  ⟨fun _ => rfl, fun _ _ => rfl, fun _ => rfl,
   fun _ _ => rfl, fun _ _ _ _ => rfl, fun _ _ => rfl⟩

/-- An item yielded by the store's event stream: a replication event or a
stream-level error (the Rust stream yields anyhow Results). -/
abbrev StreamItem := Except String InternalLiveEvent

instance (priority := low) {ε α : Type} [DecidableEq ε] [DecidableEq α] :
    DecidableEq (Except ε α) := fun a b =>
  match a, b with
  | Except.ok x, Except.ok y =>
      if h : x = y then isTrue (by rw [h]) else isFalse (by intro hc; injection hc; exact h (by assumption))
  | Except.error x, Except.error y =>
      if h : x = y then isTrue (by rw [h]) else isFalse (by intro hc; injection hc; exact h (by assumption))
  | Except.ok _, Except.error _ => isFalse (by intro hc; exact Except.noConfusion hc)
  | Except.error _, Except.ok _ => isFalse (by intro hc; exact Except.noConfusion hc)

/-- Observable outcome of the forwarding loop: the log lines printed and
the public events passed to the callback, in stream order. -/
structure LoopResult where
  log : List String
  invoked : List LiveEvent
deriving DecidableEq, Repr

/-- The forwarding loop of Doc::subscribe (node.rs 130-142): each stream
item is logged on arrival; a successful event is converted and handed to
the callback, a callback failure being logged; a stream-level error is
logged; in every case the loop continues with the rest of the stream. -/
def runLoop (cb : LiveEvent → Except String Unit) : List StreamItem → LoopResult
  | [] => ⟨[], []⟩
  | Except.ok ev :: rest =>
      let r := runLoop cb rest
      match cb (liveEventFrom ev) with
      | Except.ok _ => ⟨"got event" :: r.log, liveEventFrom ev :: r.invoked⟩
      | Except.error err =>
          ⟨"got event" :: ("cb error: " ++ err) :: r.log,
           liveEventFrom ev :: r.invoked⟩
  | Except.error e :: rest =>
      let r := runLoop cb rest
      ⟨"got event" :: ("rpc error: " ++ e) :: r.log, r.invoked⟩

/-- Outcome of one background forwarding task. -/
inductive TaskOutcome where
  | completed (r : LoopResult)
  | panicked (msg : String)
deriving DecidableEq, Repr

/-- The forwarding task spawned by Doc::subscribe (node.rs 128-143):
`client.subscribe().await.unwrap()` panics the task when opening the
event stream fails; otherwise the loop runs over the stream's items until
the stream ends.  `openResult` is the stream-open outcome carrying the
finite trace of items the stream yields before ending. -/
def subscribeTask (openResult : Except String (List StreamItem))
    (cb : LiveEvent → Except String Unit) : TaskOutcome :=
  match openResult with
  | Except.error e => TaskOutcome.panicked ("called unwrap on an Err value: " ++ e)
  | Except.ok items => TaskOutcome.completed (runLoop cb items)

/-- The spawned-task environment of one document handle: the forwarding
tasks started so far, by outcome, in spawn order. -/
structure SubWorld where
  tasks : List TaskOutcome

/-- Doc::subscribe (node.rs 126-146): spawns exactly one forwarding task
on the executor's main run loop and returns Ok immediately, never
inspecting the task's outcome. -/
def Doc.subscribe (w : SubWorld) (openResult : Except String (List StreamItem))
    (cb : LiveEvent → Except String Unit) : SubWorld × Except IrohError Unit :=
  (⟨w.tasks ++ [subscribeTask openResult cb]⟩, Except.ok ())

/-- The successful events of a stream trace, in order. -/
def okEvents (items : List StreamItem) : List InternalLiveEvent :=
  items.filterMap (fun i => match i with
    | Except.ok e => some e
    | Except.error _ => none)

lemma runLoop_invoked (cb : LiveEvent → Except String Unit)
    (items : List StreamItem) :
    (runLoop cb items).invoked = (okEvents items).map liveEventFrom := by
  induction items with
  | nil => rfl
  | cons i rest ih =>
      cases i with
      | ok ev =>
          cases hcb : cb (liveEventFrom ev) <;>
            simp [runLoop, okEvents, hcb] <;> simpa [okEvents] using ih
      | error e => simpa [runLoop, okEvents] using ih

lemma runLoop_log_rpc (cb : LiveEvent → Except String Unit)
    (items : List StreamItem) (e : String) (h : Except.error e ∈ items) :
    ("rpc error: " ++ e) ∈ (runLoop cb items).log := by
  induction items with
  | nil => simp at h
  | cons i rest ih =>
      cases i with
      | ok ev =>
          have h2 : Except.error e ∈ rest := by simpa using h
          cases hcb : cb (liveEventFrom ev) <;> simp [runLoop, hcb] <;>
            first
            | exact Or.inr (ih h2)
            | exact Or.inr (Or.inr (ih h2))
      | error e2 =>
          rcases List.mem_cons.mp h with heq | h2
          · have : e = e2 := by injection heq
            subst this
            simp [runLoop]
          · simp [runLoop]
            exact Or.inr (Or.inr (ih h2))

lemma runLoop_log_cb (cb : LiveEvent → Except String Unit)
    (items : List StreamItem) (ev : InternalLiveEvent) (er : String)
    (hmem : Except.ok ev ∈ items) (hcb : cb (liveEventFrom ev) = Except.error er) :
    ("cb error: " ++ er) ∈ (runLoop cb items).log := by
  induction items with
  | nil => simp at hmem
  | cons i rest ih =>
      cases i with
      | ok ev2 =>
          rcases List.mem_cons.mp hmem with heq | h2
          · have hev : ev = ev2 := by injection heq
            subst hev
            simp [runLoop, hcb]
          · cases hcb2 : cb (liveEventFrom ev2) <;> simp [runLoop, hcb2] <;>
              first
              | exact Or.inr (ih h2)
              | exact Or.inr (Or.inr (ih h2))
      | error e =>
          have h2 : Except.ok ev ∈ rest := by simpa using hmem
          simp [runLoop]
          exact Or.inr (Or.inr (ih h2))

/-- C4: in the forwarding task, for every item pulled from the event
stream: a stream-level error is logged and the task continues (the
callback is still invoked, in order, on every successful event of the
whole stream), and a callback failure is logged and does not stop
delivery of subsequent events. -/
theorem subscribe_loop_logs_and_continues (cb : LiveEvent → Except String Unit)
    (items : List StreamItem) :
    (runLoop cb items).invoked = (okEvents items).map liveEventFrom
    ∧ (∀ e, Except.error e ∈ items →
        ("rpc error: " ++ e) ∈ (runLoop cb items).log)
    ∧ (∀ ev er, Except.ok ev ∈ items → cb (liveEventFrom ev) = Except.error er →
        ("cb error: " ++ er) ∈ (runLoop cb items).log) :=
  ⟨runLoop_invoked cb items,
   fun e h => runLoop_log_rpc cb items e h,
   fun ev er hm hc => runLoop_log_cb cb items ev er hm hc⟩

/-- A concrete callback used to evaluate the subscription loop: it rejects
remote-insert events and accepts the rest. -/
def cbRejectRemote : LiveEvent → Except String Unit := fun le =>
  match le with
  | LiveEvent.insertRemote => Except.error "boom"
  | _ => Except.ok ()

/-- A concrete stream trace: a stream-level error, then a remote insert,
then a local insert. -/
def itemsW : List StreamItem :=
  [Except.error "net",
   Except.ok (InternalLiveEvent.insertRemote 7 ⟨⟨0⟩, [], 0⟩),
   Except.ok (InternalLiveEvent.insertLocal ⟨⟨0⟩, [], 0⟩)]

/-- Witness for C4 at a concrete stream trace and callback. -/
theorem subscribe_loop_logs_and_continues_witness :
    (runLoop cbRejectRemote itemsW).invoked = (okEvents itemsW).map liveEventFrom
    ∧ ("rpc error: " ++ "net") ∈ (runLoop cbRejectRemote itemsW).log
    ∧ ("cb error: " ++ "boom") ∈ (runLoop cbRejectRemote itemsW).log :=
  ⟨(subscribe_loop_logs_and_continues cbRejectRemote itemsW).1,
   (subscribe_loop_logs_and_continues cbRejectRemote itemsW).2.1 "net" (by decide),
   (subscribe_loop_logs_and_continues cbRejectRemote itemsW).2.2
     (InternalLiveEvent.insertRemote 7 ⟨⟨0⟩, [], 0⟩) "boom" (by decide) (by decide)⟩

/-- C1 counterexample: when opening the event stream fails, the forwarding
work started by subscribe escapes as a panic (the unwrap at node.rs line
129) rather than being returned or logged as an error. -/
theorem subscribe_open_failure_panics :
    subscribeTask (Except.error "connection closed") (fun _ => Except.ok ())
      = TaskOutcome.panicked
          ("called unwrap on an Err value: " ++ "connection closed") := rfl

/-- C1 (amended): subscribe itself always returns Ok, and once the event
stream opens successfully every path of the forwarding task is returned or
logged rather than escaping as a panic; the sole exception in the code is
a failed stream open, which panics the background task via unwrap. -/
theorem public_ops_no_abort_except_stream_open (w : SubWorld)
    (openResult : Except String (List StreamItem))
    (cb : LiveEvent → Except String Unit) :
    (Doc.subscribe w openResult cb).2 = Except.ok ()
    ∧ (∀ items, openResult = Except.ok items →
        subscribeTask openResult cb = TaskOutcome.completed (runLoop cb items)) := by
  refine ⟨rfl, ?_⟩
  intro items h
  subst h
  rfl

/-- Witness for the amended C1 at a concrete world, stream and callback. -/
theorem public_ops_no_abort_except_stream_open_witness :
    (Doc.subscribe ⟨[]⟩ (Except.ok itemsW) cbRejectRemote).2 = Except.ok ()
    ∧ subscribeTask (Except.ok itemsW) cbRejectRemote
        = TaskOutcome.completed (runLoop cbRejectRemote itemsW) :=
  ⟨(public_ops_no_abort_except_stream_open ⟨[]⟩ (Except.ok itemsW) cbRejectRemote).1,
   (public_ops_no_abort_except_stream_open ⟨[]⟩ (Except.ok itemsW) cbRejectRemote).2
     itemsW rfl⟩

/-- C5: every subscribe call starts exactly one new background forwarding
task, appended after those already running, and returns Ok without waiting
on it; no failure inside the task — a failed stream open included — is
propagated to the caller as a returned error. -/
theorem subscribe_spawns_one_task_and_returns_ok (w : SubWorld)
    (openResult : Except String (List StreamItem))
    (cb : LiveEvent → Except String Unit) :
    (Doc.subscribe w openResult cb).1.tasks = w.tasks ++ [subscribeTask openResult cb]
    ∧ (Doc.subscribe w openResult cb).1.tasks.length = w.tasks.length + 1
    ∧ (Doc.subscribe w openResult cb).2 = Except.ok () :=
  ⟨rfl, by simp [Doc.subscribe], rfl⟩

/-- Modelled from the spec: the store-side state of one replicated
document as observed through this facade — the node-recognized authors,
the entries in insertion order, and the content-addressed blob store the
entries' value references point into. -/
structure DocState where
  validAuthors : List AuthorId
  entries : List SignedEntry
  blobs : List (List Byte)
deriving DecidableEq, Repr

/-- Modelled from the spec: the store's "most recent entry per
(author, key)" view — for each (author, key) pair the last entry
inserted survives. -/
def latestEntries (es : List SignedEntry) : List SignedEntry :=
  es.foldl (fun acc e =>
    acc.filter (fun e2 => !(e2.author == e.author && e2.key == e.key)) ++ [e]) []

/-- Doc::latest (node.rs 62-72): re-queries the store for the full current
most-recent-per-author-and-key result set; failures of the underlying
query would surface as Doc errors (none arise in the pure store model). -/
def Doc.latest (d : DocState) : Except IrohError (List SignedEntry) :=
  Except.ok (latestEntries d.entries)

/-- Doc::set_bytes (node.rs 98-112): writes one entry authored by the
given author; per the spec it succeeds only if the author is valid for
this node, the failure surfacing as a Doc error; on success the new entry
references the freshly stored content and is appended to the document. -/
def Doc.set_bytes (d : DocState) (author_id : AuthorId) (key value : List Byte) :
    Except IrohError (DocState × SignedEntry) :=
  if author_id ∈ d.validAuthors then
    Except.ok
      ({ d with
          entries := d.entries ++ [⟨author_id, key, d.blobs.length⟩],
          blobs := d.blobs ++ [value] },
       ⟨author_id, key, d.blobs.length⟩)
  else Except.error (IrohError.doc "author not recognized by this node")

/-- Doc::get_content_bytes (node.rs 114-124): resolves the entry's value
reference through the blob collaborator; unavailable content is a Doc
error. -/
def Doc.get_content_bytes (d : DocState) (entry : SignedEntry) :
    Except IrohError (List Byte) :=
  match d.blobs[entry.contentRef]? with
  | some v => Except.ok v
  | none => Except.error (IrohError.doc "content not available")

lemma latestEntries_append_single (es : List SignedEntry) (e : SignedEntry) :
    latestEntries (es ++ [e]) =
      (latestEntries es).filter
        (fun e2 => !(e2.author == e.author && e2.key == e.key)) ++ [e] := by
  simp [latestEntries, List.foldl_append]

/-- C3: if set_bytes of value v under key k by author a succeeds on a
document, then latest on the resulting document contains an entry whose
key is k and whose author is a, and get_content_bytes applied to that
entry returns v. -/
theorem set_bytes_then_latest (d : DocState) (a : AuthorId) (k v : List Byte)
    (d2 : DocState) (e : SignedEntry)
    (h : Doc.set_bytes d a k v = Except.ok (d2, e)) :
    ∃ es, Doc.latest d2 = Except.ok es ∧ e ∈ es ∧ e.key = k ∧ e.author = a
      ∧ Doc.get_content_bytes d2 e = Except.ok v := by
  rw [Doc.set_bytes] at h
  split at h
  next hmem =>
    rw [Except.ok.injEq, Prod.mk.injEq] at h
    obtain ⟨hd2, he⟩ := h
    subst hd2
    subst he
    refine ⟨_, rfl, ?_, rfl, rfl, ?_⟩
    · rw [latestEntries_append_single]
      simp
    · simp [Doc.get_content_bytes, List.getElem?_concat_length]
  next hmem => exact absurd h (by simp)

/-- Witness for C3 at a concrete document, author, key and value. -/
theorem set_bytes_then_latest_witness :
    ∃ es,
      Doc.latest ⟨[⟨0⟩], [⟨⟨0⟩, [1, 2], 0⟩], [[3]]⟩ = Except.ok es
      ∧ (⟨⟨0⟩, [1, 2], 0⟩ : SignedEntry) ∈ es
      ∧ (⟨⟨0⟩, [1, 2], 0⟩ : SignedEntry).key = [1, 2]
      ∧ (⟨⟨0⟩, [1, 2], 0⟩ : SignedEntry).author = ⟨0⟩
      ∧ Doc.get_content_bytes ⟨[⟨0⟩], [⟨⟨0⟩, [1, 2], 0⟩], [[3]]⟩ ⟨⟨0⟩, [1, 2], 0⟩
          = Except.ok [3] :=
  set_bytes_then_latest ⟨[⟨0⟩], [], []⟩ ⟨0⟩ [1, 2] [3]
    ⟨[⟨0⟩], [⟨⟨0⟩, [1, 2], 0⟩], [[3]]⟩ ⟨⟨0⟩, [1, 2], 0⟩ (by decide)

/-- Modelled from the spec: the author-minting state of the node's store —
createAuthor mints a fresh keypair-derived id on demand, two calls never
returning equal ids; freshness of the external keypair generation is
modelled by a monotone counter of minted identities. -/
structure NodeAuthorState where
  nextAuthor : Nat
deriving DecidableEq, Repr

/-- IrohNode::create_author (node.rs 246-256): asks the store for a
freshly minted author identity and returns it. -/
def IrohNode.create_author (st : NodeAuthorState) : NodeAuthorState × AuthorId :=
  (⟨st.nextAuthor + 1⟩, ⟨st.nextAuthor⟩)

/-- The ids returned by n successive create_author calls starting from st,
in call order, together with the final state. -/
def issueAuthors (st : NodeAuthorState) : Nat → NodeAuthorState × List AuthorId
  | 0 => (st, [])
  | n + 1 =>
      let p := IrohNode.create_author st
      let q := issueAuthors p.1 n
      (q.1, p.2 :: q.2)

lemma issueAuthors_ids (st : NodeAuthorState) (n : Nat) :
    ((issueAuthors st n).2).map AuthorId.id
      = (List.range n).map (fun i => st.nextAuthor + i) := by
  induction n generalizing st with
  | zero => rfl
  | succ n ih =>
      rw [List.range_succ_eq_map]
      simp [issueAuthors, IrohNode.create_author, ih, List.map_map]
      intro a _
      omega

/-- C8: create_author returns a distinct author id on each call — the ids
minted by any sequence of calls on the same node are pairwise distinct —
and an id's string form is a pure function of the id, hence stable across
repeated to_string calls. -/
theorem create_author_distinct_and_to_string_stable
    (st : NodeAuthorState) (n : Nat) :
    ((issueAuthors st n).2).Nodup
    ∧ (∀ a b : AuthorId, a.id = b.id → a.to_string = b.to_string) := by
  constructor
  · apply List.Nodup.of_map AuthorId.id
    rw [issueAuthors_ids]
    exact List.Nodup.map (fun x y hxy => by omega) (List.nodup_range n)
  · intro a b h
    cases a
    cases b
    simp only at h
    subst h
    rfl

/-- Witness for C8 at a concrete node state and call count. -/
theorem create_author_distinct_witness :
    ((issueAuthors ⟨0⟩ 3).2).Nodup
    ∧ AuthorId.to_string ⟨5⟩ = AuthorId.to_string ⟨5⟩ :=
  ⟨(create_author_distinct_and_to_string_stable ⟨0⟩ 3).1,
   (create_author_distinct_and_to_string_stable ⟨0⟩ 3).2 ⟨5⟩ ⟨5⟩ rfl⟩

/-- The collaborator outcomes consumed by IrohNode::new, in execution
order (node.rs 185-229): runtime build, working-directory allocation,
document store open, blob directory creation, blob store load, node
spawn/bind.  Each field is the external step's result, ok carrying an
opaque handle. -/
structure NewEnv where
  runtimeBuild : Except String Unit
  tempdir : Except String String
  docsOpen : Except String Nat
  createDirAll : Except String Unit
  blobLoad : Except String Nat
  spawnNode : Except String Nat

/-- The node state produced by a successful construction: the stores, the
spawned node handle, and the sync client obtained from the node. -/
structure IrohNodeState where
  docsStore : Nat
  blobStore : Nat
  nodeHandle : Nat
  syncClient : Nat
deriving DecidableEq, Repr

/-- IrohNode::new (node.rs 185-229): builds the runtime (a RuntimeInit
error if that fails), allocates the working directory (NodeCreate on
failure), then runs the store opens and the node spawn as one unit through
the bridge, every failure of that unit mapped to a single NodeCreate
error; only a fully constructed node is returned. -/
def IrohNode.new (env : NewEnv) : Except IrohError IrohNodeState :=
  match env.runtimeBuild with
  | Except.error e => Except.error (IrohError.runtime e)
  | Except.ok _ =>
      match env.tempdir with
      | Except.error e => Except.error (IrohError.nodeCreate e)
      | Except.ok _ =>
          match (do
            let docs ← env.docsOpen
            let _ ← env.createDirAll
            let blobs ← env.blobLoad
            let node ← env.spawnNode
            pure (docs, blobs, node) : Except String (Nat × Nat × Nat)) with
          | Except.error e => Except.error (IrohError.nodeCreate e)
          | Except.ok (docs, blobs, node) => Except.ok ⟨docs, blobs, node, node⟩

/-- C6: once the runtime is constructed, if any step of node construction
fails — working-directory allocation, document store open, blob directory
creation, blob store load, bind or spawn — the whole sequence aborts with
a single NodeCreate error and no node state is produced. -/
theorem node_create_failure_atomic (env : NewEnv)
    (hrt : env.runtimeBuild = Except.ok ())
    (hfail : env.tempdir.isOk = false ∨ env.docsOpen.isOk = false
      ∨ env.createDirAll.isOk = false ∨ env.blobLoad.isOk = false
      ∨ env.spawnNode.isOk = false) :
    ∃ msg, IrohNode.new env = Except.error (IrohError.nodeCreate msg) := by
  obtain ⟨rb, td, docs, cd, bl, sp⟩ := env
  simp only at hrt hfail ⊢
  subst hrt
  cases td <;> cases docs <;> cases cd <;> cases bl <;> cases sp <;>
    simp_all [IrohNode.new, Except.isOk, Except.toBool, Bind.bind, Except.bind]

/-- Witness for C6: a concrete environment whose working-directory
allocation fails. -/
theorem node_create_failure_atomic_witness :
    ∃ msg,
      IrohNode.new
          ⟨Except.ok (), Except.error "disk full", Except.ok 0, Except.ok (),
           Except.ok 0, Except.ok 0⟩
        = Except.error (IrohError.nodeCreate msg) :=
  node_create_failure_atomic
    ⟨Except.ok (), Except.error "disk full", Except.ok 0, Except.ok (),
     Except.ok 0, Except.ok 0⟩ rfl (Or.inl rfl)

/-- Modelled from the spec: the observable state of one executor runtime
as seen by a blocking call — whether it has already shut down.  The
external executor's contract is that entering a runtime that has shut
down aborts the call (a panic); it does not return. -/
structure ExecutorState where
  isShutdown : Bool
deriving DecidableEq, Repr

/-- Outcome of a blocking call: the future's value, or a panic of the
calling context.  The bridge's Rust signature returns T directly, so the
outcome type has no error constructor at all. -/
inductive BlockOnOutcome (T : Type) where
  | value (t : T)
  | panicked (msg : String)
deriving DecidableEq, Repr

/-- One runtime handle's block_on, per the external executor contract: a
live runtime runs the future to completion; a shut-down runtime panics. -/
def handleBlockOn {T : Type} (st : ExecutorState) (fut : T) : BlockOnOutcome T :=
  if st.isShutdown then BlockOnOutcome.panicked "runtime has been shut down"
  else BlockOnOutcome.value fut

/-- block_on (node.rs 281-286): inside block_in_place, dispatch on whether
the calling thread is already inside a runtime — if so, block on the
current runtime's handle, otherwise on the bridge's main runtime
handle. -/
def block_on {T : Type} (current mainRt : ExecutorState)
    (callerInsideExecutor : Bool) (fut : T) : BlockOnOutcome T :=
  if callerInsideExecutor then handleBlockOn current fut
  else handleBlockOn mainRt fut

/-- C7 counterexample: a block_on call dispatched to the main runtime
after it has shut down does not fail with a Runtime-unavailable error —
the bridge's result type has no error channel — it aborts (panics) the
call instead. -/
theorem block_on_after_shutdown_panics :
    block_on ⟨false⟩ ⟨true⟩ false (42 : Nat)
      = BlockOnOutcome.panicked "runtime has been shut down" := rfl

/-- C7 (amended): block_on has no error-return path; a call dispatched to
a runtime that has already shut down panics rather than returning a
Runtime-unavailable error, and a call dispatched to a live runtime
returns the future's value. -/
theorem block_on_shutdown_behavior {T : Type} (current mainRt : ExecutorState)
    (inExec : Bool) (fut : T) :
    ((if inExec then current else mainRt).isShutdown = true →
      block_on current mainRt inExec fut
        = BlockOnOutcome.panicked "runtime has been shut down")
    ∧ ((if inExec then current else mainRt).isShutdown = false →
      block_on current mainRt inExec fut = BlockOnOutcome.value fut) := by
  refine ⟨?_, ?_⟩ <;> intro h <;> cases inExec <;>
    simp_all [block_on, handleBlockOn]

/-- Witness for the amended C7 at concrete runtimes and futures. -/
theorem block_on_shutdown_behavior_witness :
    block_on ⟨false⟩ ⟨true⟩ false (5 : Nat)
      = BlockOnOutcome.panicked "runtime has been shut down"
    ∧ block_on ⟨false⟩ ⟨false⟩ false (5 : Nat) = BlockOnOutcome.value 5 :=
  ⟨(block_on_shutdown_behavior ⟨false⟩ ⟨true⟩ false 5).1 rfl,
   (block_on_shutdown_behavior ⟨false⟩ ⟨false⟩ false 5).2 rfl⟩

end IrohFfi
